import Mathlib

/-
  Verification of the MoMA gender-representation ETL pipeline
  (finalproject.py) against its specification.

  The pipeline is shallowly embedded: pandas dataframes become lists of
  records, string columns become lists of characters, missing values
  become Option, and float shares are computed exactly in the rationals
  (the specification tolerates 1e-9 of float error, which the exact
  model satisfies trivially).

  Python string primitives (strip, lower, title, substring search) and
  the two regular expressions of the source are modelled character by
  character for the ASCII fragment the data uses.  pd.to_datetime(...)
  followed by .dt.year is abstracted as an already-extracted optional
  year on the artwork record; pd.to_numeric on Birth Year likewise.
-/

set_option maxRecDepth 10000

namespace Moma

/-! ## Python string primitives over lists of characters -/

def isSpaceChar (c : Char) : Bool :=
  c = ' ' || c = '\t' || c = '\n' || c = '\r' || c = '\x0b' || c = '\x0c'

/-- str.strip(): drop whitespace at both ends. -/
def stripChars (s : List Char) : List Char :=
  ((s.dropWhile isSpaceChar).reverse.dropWhile isSpaceChar).reverse

/-- str.lower(), ASCII fragment. -/
def lowerChar (c : Char) : Char :=
  if 65 ≤ c.toNat && c.toNat ≤ 90 then Char.ofNat (c.toNat + 32) else c

/-- str.upper() on one character, ASCII fragment. -/
def upperChar (c : Char) : Char :=
  if 97 ≤ c.toNat && c.toNat ≤ 122 then Char.ofNat (c.toNat - 32) else c

def isAlphaChar (c : Char) : Bool :=
  (65 ≤ c.toNat && c.toNat ≤ 90) || (97 ≤ c.toNat && c.toNat ≤ 122)

def isDigitChar (c : Char) : Bool :=
  48 ≤ c.toNat && c.toNat ≤ 57

def isWordChar (c : Char) : Bool :=
  isAlphaChar c || isDigitChar c || c = '_'

def lowerStr (s : List Char) : List Char := s.map lowerChar

/-- str.title(), ASCII fragment: the first character of each run of
letters is uppercased, the rest lowercased.  The flag records whether
the previous character was a letter. -/
def titleAux : Bool → List Char → List Char
  | _, [] => []
  | prev, c :: t =>
    (if prev then lowerChar c else upperChar c) :: titleAux (isAlphaChar c) t

def titleStr (s : List Char) : List Char := titleAux false s

/-- Substring test: does pat occur contiguously in s (Python `in`). -/
def hasSubstr (pat : List Char) : List Char → Bool
  | [] => pat.isEmpty
  | c :: t => pat.isPrefixOf (c :: t) || hasSubstr pat t

/-- str(x) for an optional string cell: pandas stores a missing cell as
float nan and Python renders str(nan) as "nan". -/
def pyStrOpt : Option (List Char) → List Char
  | none => [ 'n', 'a', 'n' ]
  | some s => s

/-! ## Field normalizer (finalproject.py lines 19-46) -/

/-- Artist-table identifier normalization (line 19): strip only. -/
def normArtistId (s : List Char) : List Char := stripChars s

/-- Everything before the first comma: str.split(",")[0]. -/
def beforeComma (s : List Char) : List Char := s.takeWhile (fun c => c ≠ ',')

/-- Artwork-table identifier normalization (lines 20 and 22): strip,
then keep the first comma-separated entry, stripped again. -/
def normArtworkId (s : List Char) : List Char :=
  stripChars (beforeComma (stripChars s))

def unknownStrings : List (List Char) :=
  [ "".data, "nan".data, "none".data, "unknown".data,
    "unspecified".data, "n/a".data, "null".data ]

/-- norm_gender (lines 26-37), translated clause by clause. -/
def norm_gender (x : Option (List Char)) : List Char :=
  let s := lowerStr (stripChars (pyStrOpt x))
  if unknownStrings.contains s then "Unknown".data
  else if "f".data.isPrefixOf s then "Female".data
  else if "m".data.isPrefixOf s then "Male".data
  else if hasSubstr "non".data s || hasSubstr "nb".data s
      || hasSubstr "non-b".data s || hasSubstr "binary".data s then
    "Non-binary".data
  else titleStr s

/-! ## Year parser (finalproject.py lines 121-137) -/

def digitVal (c : Char) : Nat := c.toNat - 48

/-- One attempt of the regex (three digits)(literal 0)(literal s) at the
head of the list; the decade value is the three-digit group times ten,
exactly int(group(1) + "0"). -/
def decadeAt : List Char → Option Nat
  | a :: b :: c :: d :: e :: _ =>
    if isDigitChar a && isDigitChar b && isDigitChar c && d = '0' && e = 's' then
      some ((digitVal a * 100 + digitVal b * 10 + digitVal c) * 10)
    else none
  | _ => none

/-- re.search of the decade pattern: leftmost match. -/
def findDecade : List Char → Option Nat
  | [] => none
  | c :: t =>
    match decadeAt (c :: t) with
    | some y => some y
    | none => findDecade t

/-- Closing word boundary: the character after the match, if any, is a
non-word character. -/
def yearBoundaryOk : List Char → Bool
  | [] => true
  | r :: _ => !isWordChar r

/-- One attempt of the year token (1[0-9]{3}|20[0-9]{2}) at the head of
the list; a successful match always consumes exactly four characters,
and the closing word boundary is checked against the fifth. -/
def yearTokenAt : List Char → Option Nat
  | a :: b :: c :: d :: rest =>
    if isDigitChar a && isDigitChar b && isDigitChar c && isDigitChar d
        && (a = '1' || (a = '2' && b = '0'))
        && yearBoundaryOk rest then
      some (digitVal a * 1000 + digitVal b * 100 + digitVal c * 10 + digitVal d)
    else none
  | _ => none

/-- re.findall of the year pattern: scan left to right, matching only at
an opening word boundary (the flag says the previous character was a
non-word character or the start), non-overlapping: a match consumes its
four characters, recorded by the skip counter so the recursion stays
structural on the input list. -/
def findYearsAux : Bool → Nat → List Char → List Nat
  | _, _, [] => []
  | _, Nat.succ k, _ :: t => findYearsAux false k t
  | atB, 0, c :: t =>
    if atB then
      match yearTokenAt (c :: t) with
      | some v => v :: findYearsAux false 3 t
      | none => findYearsAux (!isWordChar c) 0 t
    else findYearsAux (!isWordChar c) 0 t

def findYears (atB : Bool) (s : List Char) : List Nat :=
  findYearsAux atB 0 s

/-- int(round(np.mean(years))) on a nonempty list with sum s and length
n, computed exactly: round half to even of the rational s/n. -/
def roundMean (s n : Nat) : Nat :=
  let q := s / n
  let r := s % n
  if 2 * r < n then q
  else if n < 2 * r then q + 1
  else if q % 2 = 0 then q else q + 1

/-- parse_creation_year (lines 121-137).  Missing input gives the
missing sentinel (np.nan, modelled as none); otherwise the text is
lowercased and stripped, the decade pattern is tried first, and
otherwise the mean of all whole-token years in 1000-2099 is rounded. -/
def parse_creation_year (txt : Option (List Char)) : Option Nat :=
  match txt with
  | none => none
  | some t =>
    let s := stripChars (lowerStr t)
    match findDecade s with
    | some y => some y
    | none =>
      let years := findYears true s
      if years.isEmpty then none
      else some (roundMean years.sum years.length)

/-! ## Data model

An artist row as read from artists.csv, before cleaning: the identifier
as a string, gender as an optional string (missing cell = NaN), birth
year after pd.to_numeric coercion, nationality as an optional string.
An artwork row carries its identifier string, the acquisition year as
extracted by pd.to_datetime(...).dt.year (none when coercion failed),
the raw creation-date text, and the department. -/

structure ArtistRow where
  artistId : List Char
  gender : Option (List Char)
  birthYear : Option Int
  nationality : Option (List Char)
deriving DecidableEq, Repr

structure ArtworkRow where
  artistId : List Char
  acqYear : Option Int
  dateText : Option (List Char)
  department : Option (List Char)
deriving DecidableEq, Repr

/-- An artist row after lines 19 and 40: identifier stripped, gender
normalized (so never missing). -/
structure ArtistNorm where
  artistId : List Char
  gender : List Char
  birthYear : Option Int
  nationality : Option (List Char)
deriving DecidableEq, Repr

/-- A row of the merged frame df (line 49): the artwork columns plus
the artist-derived columns, which are missing when no artist matched. -/
structure JoinedRow where
  artistId : List Char
  acqYear : Option Int
  dateText : Option (List Char)
  department : Option (List Char)
  gender : Option (List Char)
  birthYear : Option Int
  nationality : Option (List Char)
deriving DecidableEq, Repr

/-- Lines 19, 40, 45, 46: strip the identifier and normalize gender. -/
def prepArtists (as : List ArtistRow) : List ArtistNorm :=
  as.map fun a =>
    ⟨normArtistId a.artistId, norm_gender a.gender, a.birthYear, a.nationality⟩

/-- Lines 20 and 22: strip the identifier, keep the first
comma-separated entry. -/
def prepArtworks (ws : List ArtworkRow) : List ArtworkRow :=
  ws.map fun w => { w with artistId := normArtworkId w.artistId }

/-- The rows a single left-join key produces (pandas merge how=left):
all matching artist rows in order, or a single row with the
artist-derived columns missing. -/
def joinRowsFor (as : List ArtistNorm) (w : ArtworkRow) : List JoinedRow :=
  match as.filter (fun a => a.artistId == w.artistId) with
  | [] => [⟨w.artistId, w.acqYear, w.dateText, w.department, none, none, none⟩]
  | ms => ms.map fun a =>
      ⟨w.artistId, w.acqYear, w.dateText, w.department,
        some a.gender, a.birthYear, a.nationality⟩

/-- Line 49: df = artworks.merge(artists[...], on="Artist ID",
how="left"), after both sides were normalized. -/
def df (as : List ArtistRow) (ws : List ArtworkRow) : List JoinedRow :=
  ((prepArtworks ws).map (joinRowsFor (prepArtists as))).flatten

/-- The single joined row an artwork yields when the artist table has
at most one row per identifier: the unique match, or the artwork alone
with the artist-derived columns missing. -/
def oneJoin (as : List ArtistNorm) (w : ArtworkRow) : JoinedRow :=
  match as.find? (fun a => a.artistId == w.artistId) with
  | some a =>
    ⟨w.artistId, w.acqYear, w.dateText, w.department,
      some a.gender, a.birthYear, a.nationality⟩
  | none => ⟨w.artistId, w.acqYear, w.dateText, w.department, none, none, none⟩

/-! ## De-duplication (pandas drop_duplicates, keep="first") -/

def dedupGo {α κ : Type} [DecidableEq κ] (key : α → κ) :
    List κ → List α → List α
  | _, [] => []
  | seen, x :: t =>
    if key x ∈ seen then dedupGo key seen t
    else x :: dedupGo key (key x :: seen) t

/-- drop_duplicates on the given key, keeping the first occurrence. -/
def dedupBy {α κ : Type} [DecidableEq κ] (key : α → κ) (l : List α) : List α :=
  dedupGo key [] l

/-- Line 61: df.dropna(subset=["year_acq"]).drop_duplicates(["Artist
ID", "year_acq"]) -/
def df_acq_unique (as : List ArtistRow) (ws : List ArtworkRow) : List JoinedRow :=
  dedupBy (fun r => (r.artistId, r.acqYear))
    ((df as ws).filter (fun r => r.acqYear.isSome))

/-- Line 78: the same frame further restricted to rows with a present
department (the source reassigns df_acq_unique in place). -/
def df_acq_unique_dept (as : List ArtistRow) (ws : List ArtworkRow) :
    List JoinedRow :=
  (df_acq_unique as ws).filter (fun r => r.department.isSome)

/-! ## Grouped counts, totals and shares

pandas groupby(keys).size() drops every row in which some group key is
missing; the remaining (key, gender) pairs are counted.  The total
column is the per-key sum of the counts (transform "sum"), and share is
count / total, computed here exactly in the rationals. -/

structure AggRow (κ : Type) where
  key : κ
  gender : List Char
  count : Nat
  total : Nat
  share : ℚ
deriving DecidableEq, Repr

/-- The (key, gender) pairs that survive groupby, in row order. -/
def pairsOf {α κ : Type} (k : α → Option κ) (g : α → Option (List Char))
    (rows : List α) : List (κ × List Char) :=
  rows.filterMap fun r =>
    match k r, g r with
    | some a, some b => some (a, b)
    | _, _ => none

/-- groupby(key, gender).size(): one entry per distinct pair with its
number of occurrences. -/
def groupSizes {κ : Type} [DecidableEq κ] (prs : List (κ × List Char)) :
    List ((κ × List Char) × Nat) :=
  (dedupBy id prs).map fun p =>
    (p, (prs.filter (fun q => decide (q = p))).length)

/-- transform("sum") over a key group: the sum of the counts of all
pairs sharing the key. -/
def totalAt {κ : Type} [DecidableEq κ] (base : List ((κ × List Char) × Nat))
    (key : κ) : Nat :=
  ((base.filter fun q => decide (q.1.1 = key)).map (fun q => q.2)).sum

/-- The complete group-count-total-share aggregation shared by all six
cuts of the source.  The share count / total is the exact rational,
written with mkRat (equal to division, as the C1 theorem states) so
that concrete tables evaluate inside the kernel. -/
def aggregate {α κ : Type} [DecidableEq κ] (k : α → Option κ)
    (g : α → Option (List Char)) (rows : List α) : List (AggRow κ) :=
  let base := groupSizes (pairsOf k g rows)
  base.map fun q =>
    ⟨q.1.1, q.1.2, q.2, totalAt base q.1.1,
      mkRat (q.2 : Int) (totalAt base q.1.1)⟩

/-! ## The seven exported cuts (finalproject.py lines 66-184) -/

/-- Lines 66-75: by acquisition year. -/
def gender_by_year_acq (as : List ArtistRow) (ws : List ArtworkRow) :
    List (AggRow Int) :=
  aggregate (fun r => r.acqYear) (fun r => r.gender) (df_acq_unique as ws)

/-- Lines 78-88: by acquisition year and department, on the
department-filtered de-duplicated frame. -/
def gender_by_dept_acq (as : List ArtistRow) (ws : List ArtworkRow) :
    List (AggRow (Int × List Char)) :=
  aggregate
    (fun r =>
      match r.acqYear, r.department with
      | some y, some d => some (y, d)
      | _, _ => none)
    (fun r => r.gender) (df_acq_unique_dept as ws)

/-- Line 92: artists.dropna(subset=["Birth Year"]). -/
def artists_birth (as : List ArtistRow) : List ArtistNorm :=
  (prepArtists as).filter (fun a => a.birthYear.isSome)

/-- Lines 93-104: by birth year, one row per artist. -/
def gender_by_birth_year (as : List ArtistRow) : List (AggRow Int) :=
  aggregate (fun a => a.birthYear) (fun a => some a.gender) (artists_birth as)

/-- Lines 107-116: by birth decade, floor division by ten. -/
def gender_by_birth_decade (as : List ArtistRow) : List (AggRow Int) :=
  aggregate (fun a => a.birthYear.map (fun b => Int.fdiv b 10 * 10))
    (fun a => some a.gender) (artists_birth as)

/-- Lines 140-142: the parsed creation year column. -/
def yearCreated (r : JoinedRow) : Option Nat :=
  parse_creation_year r.dateText

/-- Lines 146-159: by creation year at artwork level, every artwork
counted. -/
def gender_by_creation_year_artworks (as : List ArtistRow)
    (ws : List ArtworkRow) : List (AggRow Nat) :=
  aggregate yearCreated (fun r => r.gender)
    ((df as ws).filter (fun r => (yearCreated r).isSome))

/-- Lines 162-164: dropna on year_created, then drop_duplicates on
(Artist ID, year_created). -/
def df_created_unique (as : List ArtistRow) (ws : List ArtworkRow) :
    List JoinedRow :=
  dedupBy (fun r => (r.artistId, yearCreated r))
    ((df as ws).filter (fun r => (yearCreated r).isSome))

/-- Lines 165-176: by creation year at artist level. -/
def gender_by_creation_year_artists (as : List ArtistRow)
    (ws : List ArtworkRow) : List (AggRow Nat) :=
  aggregate yearCreated (fun r => r.gender) (df_created_unique as ws)

/-- Lines 179-184: nationality distribution of Female artists.  The
source reuses df_acq_unique after its line-78 reassignment, so the
frame is the department-filtered one; groupby("Nationality") drops rows
with a missing nationality, and nunique counts distinct Artist IDs. -/
def female_geo (as : List ArtistRow) (ws : List ArtworkRow) :
    List (List Char × Nat) :=
  let rows := (df_acq_unique_dept as ws).filter
    (fun r => r.gender == some "Female".data)
  let nats := dedupBy id (rows.filterMap (fun r => r.nationality))
  nats.map fun n =>
    (n, (dedupBy id
      ((rows.filter (fun r => r.nationality == some n)).map
        (fun r => r.artistId))).length)

/-! ## Statements modelled from the specification wording, and the
row-level invariant of claim C1 -/

/-- Modelled from the spec: the gender-normalization contract of
section 4.1, rule by rule in the stated order, with the passthrough
written as the original string, trimmed and title-cased.  Compared with
norm_gender in the C4 theorem. -/
def normGenderSpec (x : Option (List Char)) : List Char :=
  let s := lowerStr (stripChars (pyStrOpt x))
  if unknownStrings.contains s then "Unknown".data
  else if "f".data.isPrefixOf s then "Female".data
  else if "m".data.isPrefixOf s then "Male".data
  else if hasSubstr "non".data s || hasSubstr "nb".data s
      || hasSubstr "binary".data s then "Non-binary".data
  else titleStr (stripChars (pyStrOpt x))

/-- The invariant claim C1 asserts of every exported aggregation table:
positive counts, totals that are the per-key sums of the counts, shares
equal to count / total lying in [0, 1], and per-key share sums equal to
one (hence within 1e-9 of one, as the claim tolerances ask). -/
def aggTableOK {κ : Type} [DecidableEq κ] (t : List (AggRow κ)) : Prop :=
  ∀ r ∈ t,
    1 ≤ r.count ∧
    r.total = ((t.filter fun r2 => decide (r2.key = r.key)).map
      (fun r2 => r2.count)).sum ∧
    r.share = (r.count : ℚ) / (r.total : ℚ) ∧
    0 ≤ r.share ∧ r.share ≤ 1 ∧
    ((t.filter fun r2 => decide (r2.key = r.key)).map
      (fun r2 => r2.share)).sum = 1 ∧
    |((t.filter fun r2 => decide (r2.key = r.key)).map
      (fun r2 => r2.share)).sum - 1| ≤ 1 / 1000000000

/-! ## Concrete inputs used by witnesses and counterexamples -/

/-- One Female artist born 1950, identifier 1. -/
def exArtists1 : List ArtistRow :=
  [⟨"1".data, some "Female".data, some 1950, none⟩]

/-- Two artworks of artist 1, both acquired in 1990 (claim C2). -/
def exArtworks1 : List ArtworkRow :=
  [⟨"1".data, some 1990, none, none⟩, ⟨"1".data, some 1990, none, none⟩]

/-- Artist 1, year 1990: first record without department, second with
(claim C6). -/
def exArtworksDeptNoneFirst : List ArtworkRow :=
  [⟨"1".data, some 1990, none, none⟩,
   ⟨"1".data, some 1990, none, some "Painting".data⟩]

/-- The same two records with the department-bearing one first. -/
def exArtworksDeptSomeFirst : List ArtworkRow :=
  [⟨"1".data, some 1990, none, some "Painting".data⟩,
   ⟨"1".data, some 1990, none, none⟩]

/-- One Female American artist (claim C7). -/
def exArtistsGeo : List ArtistRow :=
  [⟨"1".data, some "Female".data, none, some "American".data⟩]

/-- One artwork of artist 1 acquired 1990, department missing. -/
def exArtworkNoDept : List ArtworkRow :=
  [⟨"1".data, some 1990, none, none⟩]

/-- One artwork of artist 1 acquired 1990, department present. -/
def exArtworkDept : List ArtworkRow :=
  [⟨"1".data, some 1990, none, some "Painting".data⟩]

/-- Two artworks of artist 1 with creation text 1990 (claim C10). -/
def exArtworksCreated : List ArtworkRow :=
  [⟨"1".data, none, some "1990".data, none⟩,
   ⟨"1".data, none, some "1990".data, none⟩]

/-- An artist whose identifier field itself is a comma-separated list
(claim C5). -/
def exArtistsCommaId : List ArtistRow :=
  [⟨"1234, 5678".data, some "Female".data, some 1950, none⟩]

/-- An artist with the plain identifier 1234 (claim C5). -/
def exArtistsPlainId : List ArtistRow :=
  [⟨"1234".data, some "Female".data, some 1950, none⟩]

/-- An artwork whose Artist ID field is a comma-separated list. -/
def exArtworkCommaId : List ArtworkRow :=
  [⟨"1234, 5678".data, some 1990, none, none⟩]

/-- One matched and one unmatched artwork (claim C8). -/
def exArtworksMixed : List ArtworkRow :=
  [⟨"1".data, some 1990, none, none⟩, ⟨"2".data, some 1991, none, none⟩]

/-- An artist whose own birth year is missing (claim C8): a match with
absent artist-side fields. -/
def exArtistsNoBirth : List ArtistRow :=
  [⟨"1".data, some "Female".data, none, none⟩]

/-! # Theorems -/

/-! ## De-duplication lemmas -/

theorem dedupGo_sublist {α κ : Type} [DecidableEq κ] (key : α → κ)
    (seen : List κ) (l : List α) : List.Sublist (dedupGo key seen l) l := by
  induction l generalizing seen with
  | nil => simp [dedupGo]
  | cons x t ih =>
    by_cases h : key x ∈ seen
    · simp only [dedupGo, if_pos h]
      exact (ih seen).cons x
    · simp only [dedupGo, if_neg h]
      exact (ih (key x :: seen)).cons₂ x

theorem dedupBy_sublist {α κ : Type} [DecidableEq κ] (key : α → κ)
    (l : List α) : List.Sublist (dedupBy key l) l :=
  dedupGo_sublist key [] l

theorem mem_of_mem_dedupBy {α κ : Type} [DecidableEq κ] {key : α → κ}
    {l : List α} {x : α} (h : x ∈ dedupBy key l) : x ∈ l :=
  (dedupBy_sublist key l).subset h

theorem countP_dedupGo_of_mem_seen {α κ : Type} [DecidableEq κ]
    (key : α → κ) (k : κ) (l : List α) : ∀ seen : List κ, k ∈ seen →
    (dedupGo key seen l).countP (fun x => decide (key x = k)) = 0 := by
  induction l with
  | nil => intro seen _; simp [dedupGo]
  | cons x t ih =>
    intro seen hk
    by_cases h : key x ∈ seen
    · simp only [dedupGo, if_pos h]
      exact ih seen hk
    · simp only [dedupGo, if_neg h, List.countP_cons]
      have hxk : ¬ key x = k := fun he => h (he ▸ hk)
      have hd : decide (key x = k) = false := decide_eq_false hxk
      simp only [hd, if_false, add_zero, Bool.false_eq_true]
      exact ih (key x :: seen) (List.mem_cons_of_mem _ hk)

theorem countP_dedupGo_le_one {α κ : Type} [DecidableEq κ]
    (key : α → κ) (k : κ) (l : List α) : ∀ seen : List κ,
    (dedupGo key seen l).countP (fun x => decide (key x = k)) ≤ 1 := by
  induction l with
  | nil => intro seen; simp [dedupGo]
  | cons x t ih =>
    intro seen
    by_cases h : key x ∈ seen
    · simp only [dedupGo, if_pos h]
      exact ih seen
    · simp only [dedupGo, if_neg h, List.countP_cons]
      by_cases hxk : key x = k
      · subst hxk
        have h0 : (dedupGo key (key x :: seen) t).countP
            (fun y => decide (key y = key x)) = 0 :=
          countP_dedupGo_of_mem_seen key (key x) t (key x :: seen)
            (List.mem_cons_self _ _)
        simp [h0]
      · have hd : decide (key x = k) = false := decide_eq_false hxk
        simp only [hd, if_false, add_zero, Bool.false_eq_true]
        exact ih (key x :: seen)

theorem countP_dedupBy_le_one {α κ : Type} [DecidableEq κ]
    (key : α → κ) (k : κ) (l : List α) :
    (dedupBy key l).countP (fun x => decide (key x = k)) ≤ 1 :=
  countP_dedupGo_le_one key k l []

theorem exists_mem_dedupGo {α κ : Type} [DecidableEq κ] (key : α → κ)
    (k : κ) (l : List α) : ∀ seen : List κ, (∃ x ∈ l, key x = k) →
    k ∉ seen → ∃ x ∈ dedupGo key seen l, key x = k := by
  induction l with
  | nil => intro seen h _; obtain ⟨x, hx, _⟩ := h; exact absurd hx (by simp)
  | cons x t ih =>
    intro seen h hks
    by_cases hm : key x ∈ seen
    · simp only [dedupGo, if_pos hm]
      obtain ⟨y, hy, hyk⟩ := h
      rcases List.mem_cons.1 hy with rfl | hyt
      · exact absurd (hyk ▸ hm) hks
      · exact ih seen ⟨y, hyt, hyk⟩ hks
    · simp only [dedupGo, if_neg hm]
      by_cases hxk : key x = k
      · exact ⟨x, List.mem_cons_self _ _, hxk⟩
      · obtain ⟨y, hy, hyk⟩ := h
        rcases List.mem_cons.1 hy with rfl | hyt
        · exact absurd hyk hxk
        · have hknotin : k ∉ key x :: seen := by
            intro hin
            rcases List.mem_cons.1 hin with he | hin2
            · exact hxk he.symm
            · exact hks hin2
          obtain ⟨z, hz, hzk⟩ := ih (key x :: seen) ⟨y, hyt, hyk⟩ hknotin
          exact ⟨z, List.mem_cons_of_mem _ hz, hzk⟩

theorem mem_dedupBy_id {κ : Type} [DecidableEq κ] {l : List κ} {p : κ}
    (h : p ∈ l) : p ∈ dedupBy id l := by
  obtain ⟨x, hx, hxk⟩ :=
    exists_mem_dedupGo (id : κ → κ) p l [] ⟨p, h, rfl⟩ (by simp)
  exact (show x = p from hxk) ▸ hx

/-! ## The aggregation invariant -/

theorem count_pos_of_mem_dedup {κ : Type} [DecidableEq κ]
    {prs : List (κ × List Char)} {p : κ × List Char}
    (hp : p ∈ dedupBy id prs) :
    1 ≤ (prs.filter (fun q => decide (q = p))).length := by
  have hp' : p ∈ prs := mem_of_mem_dedupBy hp
  have hmem : p ∈ prs.filter (fun q => decide (q = p)) :=
    List.mem_filter.2 ⟨hp', by simp⟩
  exact List.length_pos.2 (List.ne_nil_of_mem hmem)

theorem count_le_totalAt {κ : Type} [DecidableEq κ]
    {prs : List (κ × List Char)} {p : κ × List Char}
    (hp : p ∈ dedupBy id prs) :
    (prs.filter (fun q => decide (q = p))).length
      ≤ totalAt (groupSizes prs) p.1 := by
  have hbase : (p, (prs.filter (fun q => decide (q = p))).length)
      ∈ groupSizes prs :=
    List.mem_map.2 ⟨p, hp, rfl⟩
  have hfil : (p, (prs.filter (fun q => decide (q = p))).length)
      ∈ (groupSizes prs).filter (fun q => decide (q.1.1 = p.1)) :=
    List.mem_filter.2 ⟨hbase, by simp⟩
  exact List.le_sum_of_mem (List.mem_map.2 ⟨_, hfil, rfl⟩)

theorem aggregate_filter_key {α κ : Type} [DecidableEq κ]
    (k : α → Option κ) (g : α → Option (List Char)) (rows : List α)
    (key : κ) :
    (aggregate k g rows).filter (fun r2 => decide (r2.key = key))
      = ((groupSizes (pairsOf k g rows)).filter
          (fun q => decide (q.1.1 = key))).map
        (fun q => ⟨q.1.1, q.1.2, q.2,
          totalAt (groupSizes (pairsOf k g rows)) q.1.1,
          mkRat (q.2 : Int) (totalAt (groupSizes (pairsOf k g rows)) q.1.1)⟩) := by
  simp only [aggregate]
  rw [List.filter_map]
  rfl

theorem totalAt_pos {κ : Type} [DecidableEq κ]
    {prs : List (κ × List Char)} {p : κ × List Char}
    (hp : p ∈ dedupBy id prs) : 1 ≤ totalAt (groupSizes prs) p.1 :=
  le_trans (count_pos_of_mem_dedup hp) (count_le_totalAt hp)

theorem aggregate_ok {α κ : Type} [DecidableEq κ] (k : α → Option κ)
    (g : α → Option (List Char)) (rows : List α) :
    aggTableOK (aggregate k g rows) := by
  intro r hr
  have hr' := hr
  simp only [aggregate] at hr'
  obtain ⟨q, hq, rfl⟩ := List.mem_map.1 hr'
  simp only [groupSizes] at hq
  obtain ⟨p, hp, rfl⟩ := List.mem_map.1 hq
  have hc1 : 1 ≤ (List.filter (fun q2 => decide (q2 = p))
      (pairsOf k g rows)).length := count_pos_of_mem_dedup hp
  have hcT : (List.filter (fun q2 => decide (q2 = p))
      (pairsOf k g rows)).length
      ≤ totalAt (groupSizes (pairsOf k g rows)) p.1 := count_le_totalAt hp
  have hT1 : 1 ≤ totalAt (groupSizes (pairsOf k g rows)) p.1 :=
    totalAt_pos hp
  have hTne : ((totalAt (groupSizes (pairsOf k g rows)) p.1 : ℕ) : ℚ) ≠ 0 :=
    Nat.cast_ne_zero.2 (Nat.one_le_iff_ne_zero.1 hT1)
  constructor
  · exact hc1
  refine ⟨?_, ?_, ?_, ?_, ?_, ?_⟩
  · -- total is the sum of the counts over rows sharing the key
    rw [aggregate_filter_key, List.map_map]
    rfl
  · -- share = count / total
    simp only [Rat.mkRat_eq_div]
    push_cast
    rfl
  · -- share nonneg
    simp only [Rat.mkRat_eq_div]
    positivity
  · -- share at most one
    simp only [Rat.mkRat_eq_div]
    rw [div_le_one (by exact_mod_cast hT1)]
    exact_mod_cast hcT
  · -- shares at a fixed key sum to one
    rw [aggregate_filter_key]
    simp only [List.map_map, Function.comp_def]
    have hcong : ∀ q2 ∈ (groupSizes (pairsOf k g rows)).filter
        (fun q3 => decide (q3.1.1 = p.1)),
        ((fun q3 : (κ × List Char) × Nat => mkRat (q3.2 : Int)
          (totalAt (groupSizes (pairsOf k g rows)) q3.1.1)) q2)
        = ((q2.2 : ℚ) * ((totalAt (groupSizes (pairsOf k g rows)) p.1 : ℕ) : ℚ)⁻¹) := by
      intro q2 hq2
      have hkey : q2.1.1 = p.1 := by
        have := (List.mem_filter.1 hq2).2
        exact of_decide_eq_true this
      simp only [Rat.mkRat_eq_div, hkey, div_eq_mul_inv]
      push_cast
      rfl
    rw [List.map_congr_left hcong]
    rw [List.sum_map_mul_right]
    have hsum : ((((groupSizes (pairsOf k g rows)).filter
        (fun q3 => decide (q3.1.1 = p.1))).map
          (fun q3 => (q3.2 : ℚ))).sum)
        = ((totalAt (groupSizes (pairsOf k g rows)) p.1 : ℕ) : ℚ) := by
      rw [show ((((groupSizes (pairsOf k g rows)).filter
          (fun q3 => decide (q3.1.1 = p.1))).map
            (fun q3 => (q3.2 : ℚ))).sum)
          = ((((groupSizes (pairsOf k g rows)).filter
          (fun q3 => decide (q3.1.1 = p.1))).map
            (fun q3 => q3.2)).map (fun n : ℕ => (n : ℚ))).sum from by
        rw [List.map_map]; rfl]
      rw [← Nat.cast_list_sum]
      rfl
    rw [hsum, mul_inv_cancel₀ hTne]
  · -- and hence lie within the stated tolerance of one
    rw [aggregate_filter_key]
    simp only [List.map_map, Function.comp_def]
    have hcong : ∀ q2 ∈ (groupSizes (pairsOf k g rows)).filter
        (fun q3 => decide (q3.1.1 = p.1)),
        ((fun q3 : (κ × List Char) × Nat => mkRat (q3.2 : Int)
          (totalAt (groupSizes (pairsOf k g rows)) q3.1.1)) q2)
        = ((q2.2 : ℚ) * ((totalAt (groupSizes (pairsOf k g rows)) p.1 : ℕ) : ℚ)⁻¹) := by
      intro q2 hq2
      have hkey : q2.1.1 = p.1 := by
        have := (List.mem_filter.1 hq2).2
        exact of_decide_eq_true this
      simp only [Rat.mkRat_eq_div, hkey, div_eq_mul_inv]
      push_cast
      rfl
    rw [List.map_congr_left hcong]
    rw [List.sum_map_mul_right]
    have hsum : ((((groupSizes (pairsOf k g rows)).filter
        (fun q3 => decide (q3.1.1 = p.1))).map
          (fun q3 => (q3.2 : ℚ))).sum)
        = ((totalAt (groupSizes (pairsOf k g rows)) p.1 : ℕ) : ℚ) := by
      rw [show ((((groupSizes (pairsOf k g rows)).filter
          (fun q3 => decide (q3.1.1 = p.1))).map
            (fun q3 => (q3.2 : ℚ))).sum)
          = ((((groupSizes (pairsOf k g rows)).filter
          (fun q3 => decide (q3.1.1 = p.1))).map
            (fun q3 => q3.2)).map (fun n : ℕ => (n : ℚ))).sum from by
        rw [List.map_map]; rfl]
      rw [← Nat.cast_list_sum]
      rfl
    rw [hsum, mul_inv_cancel₀ hTne]
    norm_num

/-! ## Claim C1 -/

/-- C1: in every row of each of the six exported aggregation tables
(gender_by_year_acq, gender_by_dept_acq, gender_by_birth_year,
gender_by_birth_decade, gender_by_creation_year_artworks,
gender_by_creation_year_artists), the count is at least one, the total
is the sum of the counts over the rows sharing the non-gender key, the
share equals count / total and lies in [0, 1], and for each fixed key
the shares sum to one, in particular to within 1e-9 of one. -/
theorem C1_aggregation_invariant (as : List ArtistRow) (ws : List ArtworkRow) :
    aggTableOK (gender_by_year_acq as ws) ∧
    aggTableOK (gender_by_dept_acq as ws) ∧
    aggTableOK (gender_by_birth_year as) ∧
    aggTableOK (gender_by_birth_decade as) ∧
    aggTableOK (gender_by_creation_year_artworks as ws) ∧
    aggTableOK (gender_by_creation_year_artists as ws) :=
  ⟨aggregate_ok _ _ _, aggregate_ok _ _ _, aggregate_ok _ _ _,
   aggregate_ok _ _ _, aggregate_ok _ _ _, aggregate_ok _ _ _⟩

/-- Witness for C1 at a concrete input: the year-1990 shares of the
two-artwork single-artist table sum to one. -/
theorem C1_aggregation_invariant_witness :
    1 ≤ (AggRow.mk (1990 : Int) "Female".data 1 1 1).count ∧
    (((gender_by_year_acq exArtists1 exArtworks1).filter
      (fun r2 => decide (r2.key = (1990 : Int)))).map
        (fun r2 => r2.share)).sum = 1 := by
  have h := (C1_aggregation_invariant exArtists1 exArtworks1).1
    ⟨1990, "Female".data, 1, 1, 1⟩ (by decide)
  exact ⟨h.1, h.2.2.2.2.2.1⟩

/-! ## Claim C2 -/

/-- C2: in the by-acquisition-year cut an artist is counted at most
once per acquisition year: the de-duplicated acquisition frame carries
at most one row per (artist, year) pair, it carries such a row exactly
when the joined frame has one, and the concrete scenario of one Female
artist with two artworks acquired in 1990 produces the single row
(1990, Female, count 1, total 1, share 1). -/
theorem C2_dedup_per_artist_year :
    (∀ (as : List ArtistRow) (ws : List ArtworkRow) (aid : List Char)
        (y : Int),
      ((df_acq_unique as ws).filter
        (fun r => decide ((r.artistId, r.acqYear) = (aid, some y)))).length ≤ 1) ∧
    (∀ (as : List ArtistRow) (ws : List ArtworkRow) (aid : List Char)
        (y : Int),
      (∃ r ∈ df_acq_unique as ws, r.artistId = aid ∧ r.acqYear = some y) ↔
      (∃ r ∈ df as ws, r.artistId = aid ∧ r.acqYear = some y)) ∧
    gender_by_year_acq exArtists1 exArtworks1
      = [⟨1990, "Female".data, 1, 1, 1⟩] := by
  refine ⟨?_, ?_, by decide⟩
  · intro as ws aid y
    rw [← List.countP_eq_length_filter]
    exact countP_dedupBy_le_one
      (fun r : JoinedRow => (r.artistId, r.acqYear)) ((aid, some y)) _
  · intro as ws aid y
    constructor
    · rintro ⟨r, hr, hid, hy⟩
      exact ⟨r, (List.mem_filter.1 (mem_of_mem_dedupBy hr)).1, hid, hy⟩
    · rintro ⟨r, hr, hid, hy⟩
      have hrf : r ∈ (df as ws).filter (fun r2 => r2.acqYear.isSome) :=
        List.mem_filter.2 ⟨hr, by simp [hy]⟩
      obtain ⟨x, hx, hxk⟩ := exists_mem_dedupGo
        (fun r2 : JoinedRow => (r2.artistId, r2.acqYear)) (aid, some y)
        ((df as ws).filter (fun r2 => r2.acqYear.isSome)) []
        ⟨r, hrf, by simp [hid, hy]⟩ (by simp)
      refine ⟨x, hx, ?_, ?_⟩
      · exact congrArg Prod.fst hxk
      · exact congrArg Prod.snd hxk

/-- Witness for C2: the two universal parts instantiated on the
concrete scenario. -/
theorem C2_dedup_per_artist_year_witness :
    ((df_acq_unique exArtists1 exArtworks1).filter
      (fun r => decide ((r.artistId, r.acqYear)
        = ("1".data, some (1990 : Int))))).length ≤ 1 ∧
    (∃ r ∈ df_acq_unique exArtists1 exArtworks1,
      r.artistId = "1".data ∧ r.acqYear = some (1990 : Int)) := by
  refine ⟨C2_dedup_per_artist_year.1 exArtists1 exArtworks1 "1".data 1990, ?_⟩
  refine (C2_dedup_per_artist_year.2.1 exArtists1 exArtworks1
    "1".data 1990).2 ?_
  refine ⟨⟨"1".data, some 1990, none, none, some "Female".data,
    some 1950, none⟩, ?_, rfl, rfl⟩
  decide

/-- The table row an aggregation produces for a de-duplicated
(key, gender) pair. -/
theorem mem_aggregate_of_mem_dedup {α κ : Type} [DecidableEq κ]
    (k : α → Option κ) (g : α → Option (List Char)) (rows : List α)
    {p : κ × List Char} (hp : p ∈ dedupBy id (pairsOf k g rows)) :
    (⟨p.1, p.2,
      ((pairsOf k g rows).filter (fun q => decide (q = p))).length,
      totalAt (groupSizes (pairsOf k g rows)) p.1,
      mkRat (((pairsOf k g rows).filter
        (fun q => decide (q = p))).length : Int)
        (totalAt (groupSizes (pairsOf k g rows)) p.1)⟩ : AggRow κ)
      ∈ aggregate k g rows := by
  simp only [aggregate, groupSizes]
  exact List.mem_map.2 ⟨(p, _), List.mem_map.2 ⟨p, hp, rfl⟩, rfl⟩

/-! ## Claim C10 -/

/-- C10: every (year, gender) row of the artist-level creation-year cut
has a matching row in the artwork-level cut with the same key and
gender and an at-least-as-large count: de-duplicating by (artist,
creation year) only removes rows. -/
theorem C10_artist_le_artwork_counts (as : List ArtistRow)
    (ws : List ArtworkRow) :
    ∀ r ∈ gender_by_creation_year_artists as ws,
      ∃ r2 ∈ gender_by_creation_year_artworks as ws,
        r2.key = r.key ∧ r2.gender = r.gender ∧ r.count ≤ r2.count := by
  intro r hr
  simp only [gender_by_creation_year_artists, aggregate, groupSizes] at hr
  obtain ⟨q, hq, rfl⟩ := List.mem_map.1 hr
  obtain ⟨p, hp, rfl⟩ := List.mem_map.1 hq
  have hsub : List.Sublist
      (pairsOf yearCreated (fun r2 => r2.gender) (df_created_unique as ws))
      (pairsOf yearCreated (fun r2 => r2.gender)
        ((df as ws).filter (fun r2 => (yearCreated r2).isSome))) :=
    List.Sublist.filterMap _
      (dedupBy_sublist (fun r2 : JoinedRow => (r2.artistId, yearCreated r2)) _)
  have hpw : p ∈ pairsOf yearCreated (fun r2 => r2.gender)
      ((df as ws).filter (fun r2 => (yearCreated r2).isSome)) :=
    hsub.subset (mem_of_mem_dedupBy hp)
  have hpd := mem_dedupBy_id hpw
  refine ⟨_, mem_aggregate_of_mem_dedup yearCreated
    (fun r2 => r2.gender) _ hpd, rfl, rfl, ?_⟩
  exact (hsub.filter _).length_le

/-- Witness for C10: with one artist and two artworks created in 1990,
the artist-level row (count 1) is matched by the artwork-level row with
count 2. -/
theorem C10_artist_le_artwork_counts_witness :
    ∃ r2 ∈ gender_by_creation_year_artworks exArtists1 exArtworksCreated,
      r2.key = (1990 : Nat) ∧ r2.gender = "Female".data ∧ 1 ≤ r2.count := by
  have h := C10_artist_le_artwork_counts exArtists1 exArtworksCreated
    ⟨1990, "Female".data, 1, 1, 1⟩ (by decide)
  exact h

/-! ## Claim C9 -/

theorem filterMap_filter_eq_self {α β : Type} (f : α → Option β)
    (p : α → Bool) (h : ∀ x, p x = false → f x = none) (l : List α) :
    (l.filter p).filterMap f = l.filterMap f := by
  induction l with
  | nil => rfl
  | cons x t ih =>
    by_cases hp : p x
    · simp [List.filter_cons, hp, List.filterMap_cons, ih]
    · have hf : f x = none := h x (by simpa using hp)
      simp [List.filter_cons, hp, List.filterMap_cons, hf, ih]

theorem pairsOf_filter_gender {α κ : Type} (k : α → Option κ)
    (g : α → Option (List Char)) (rows : List α) :
    pairsOf k g (rows.filter (fun r => (g r).isSome)) = pairsOf k g rows := by
  unfold pairsOf
  refine filterMap_filter_eq_self _ _ ?_ rows
  intro x hx
  have hg : g x = none := Option.not_isSome_iff_eq_none.1 (by simp [hx])
  rw [hg]
  cases k x <;> rfl

/-- Counterexample to C9: an artwork whose identifier matches no artist
survives to the de-duplicated acquisition frame with an absent gender,
yet the by-year gender cut is empty: the record is silently dropped
rather than bucketed under Unknown or an unmatched label. -/
theorem C9_counterexample :
    (df_acq_unique [] exArtworkNoDept).length = 1 ∧
    ((df ([] : List ArtistRow) exArtworkNoDept).map (fun r => r.gender))
      = [none] ∧
    gender_by_year_acq [] exArtworkNoDept = [] := by decide

/-- C9 amended: artworks matching no artist record carry an absent
gender after the left join and are silently dropped from the
gender-keyed cuts, because the group-by excludes rows whose gender key
is missing; the cut equals the aggregation of the gender-present rows
alone, and no Unknown or unmatched bucket is produced. -/
theorem C9_unmatched_rows_dropped :
    (∀ (as : List ArtistRow) (ws : List ArtworkRow),
      gender_by_year_acq as ws
        = aggregate (fun r => r.acqYear) (fun r => r.gender)
            ((df_acq_unique as ws).filter (fun r => r.gender.isSome))) ∧
    (df_acq_unique [] exArtworkNoDept).length = 1 ∧
    gender_by_year_acq [] exArtworkNoDept = [] := by
  refine ⟨?_, by decide, by decide⟩
  intro as ws
  simp only [gender_by_year_acq, aggregate, pairsOf_filter_gender]

/-! ## Claim C6 -/

/-- Counterexample to C6: artist 1 has two 1990 records, the first with
a missing department and the second with one; C6 says the artist is
still counted in the department cut, but keep-first de-duplication runs
before the department filter and keeps the department-less record, so
the cut is empty. -/
theorem C6_counterexample :
    (df exArtists1 exArtworksDeptNoneFirst).length = 2 ∧
    gender_by_dept_acq exArtists1 exArtworksDeptNoneFirst = [] := by decide

/-- C6 amended: the (artist, acquisition-year) de-duplication is
applied first and rows with a missing department are dropped only
afterwards, so which record survives depends on input order: with the
department-less record first the artist vanishes from the department
cut, with the department-bearing record first the artist is counted. -/
theorem C6_dedup_before_department_filter :
    (∀ (as : List ArtistRow) (ws : List ArtworkRow),
      gender_by_dept_acq as ws
        = aggregate
            (fun r =>
              match r.acqYear, r.department with
              | some y, some d => some (y, d)
              | _, _ => none)
            (fun r => r.gender)
            ((dedupBy (fun r : JoinedRow => (r.artistId, r.acqYear))
              ((df as ws).filter (fun r => r.acqYear.isSome))).filter
                (fun r => r.department.isSome))) ∧
    gender_by_dept_acq exArtists1 exArtworksDeptNoneFirst = [] ∧
    gender_by_dept_acq exArtists1 exArtworksDeptSomeFirst
      = [⟨(1990, "Painting".data), "Female".data, 1, 1, 1⟩] := by
  exact ⟨fun as ws => rfl, by decide, by decide⟩

/-! ## Claim C7 -/

/-- Counterexample to C7: a Female artist with a de-duplicated 1990
acquisition record and nationality American is absent from the
geography cut because her record lacks a department: the cut is
computed from the department-filtered frame, a condition beyond
present acquisition year and Female gender. -/
theorem C7_counterexample :
    ((df_acq_unique exArtistsGeo exArtworkNoDept).filter
      (fun r => r.gender == some "Female".data)).length = 1 ∧
    ((df_acq_unique exArtistsGeo exArtworkNoDept).map
      (fun r => r.nationality)) = [some "American".data] ∧
    female_geo exArtistsGeo exArtworkNoDept = [] := by decide

/-- C7 amended: the geography cut counts distinct Female artist
identifiers per nationality among de-duplicated acquisition-year
records that in addition carry a present department (the source reuses
the frame after its department filter) and a present nationality; every
reported row is backed by such a record and has a positive count. -/
theorem C7_female_geo_department_filtered :
    (∀ (as : List ArtistRow) (ws : List ArtworkRow) (n : List Char)
        (c : Nat), (n, c) ∈ female_geo as ws →
      1 ≤ c ∧ ∃ r ∈ df_acq_unique_dept as ws,
        r.gender = some "Female".data ∧ r.nationality = some n ∧
        r.department.isSome = true) ∧
    female_geo exArtistsGeo exArtworkNoDept = [] ∧
    female_geo exArtistsGeo exArtworkDept = [("American".data, 1)] := by
  refine ⟨?_, by decide, by decide⟩
  intro as ws n c hmem
  simp only [female_geo] at hmem
  obtain ⟨n0, hn0, heq⟩ := List.mem_map.1 hmem
  have hn : n0 = n := congrArg Prod.fst heq
  have hc : (dedupBy id
      ((((df_acq_unique_dept as ws).filter
        (fun r => r.gender == some "Female".data)).filter
          (fun r => r.nationality == some n0)).map
            (fun r => r.artistId))).length = c := congrArg Prod.snd heq
  subst hn
  subst hc
  have hn1 : n0 ∈ ((df_acq_unique_dept as ws).filter
      (fun r => r.gender == some "Female".data)).filterMap
        (fun r => r.nationality) := mem_of_mem_dedupBy hn0
  obtain ⟨r, hr, hrn⟩ := List.mem_filterMap.1 hn1
  have hrfem : r.gender = some "Female".data := by
    have := (List.mem_filter.1 hr).2
    exact eq_of_beq this
  have hrd : r ∈ df_acq_unique_dept as ws := (List.mem_filter.1 hr).1
  have hdept : r.department.isSome = true := (List.mem_filter.1 hrd).2
  refine ⟨?_, r, hrd, hrfem, hrn, hdept⟩
  have hrfil : r ∈ ((df_acq_unique_dept as ws).filter
      (fun r2 => r2.gender == some "Female".data)).filter
        (fun r2 => r2.nationality == some n0) :=
    List.mem_filter.2 ⟨hr, by simp [hrn]⟩
  have hid : r.artistId ∈ (((df_acq_unique_dept as ws).filter
      (fun r2 => r2.gender == some "Female".data)).filter
        (fun r2 => r2.nationality == some n0)).map
          (fun r2 => r2.artistId) := List.mem_map.2 ⟨r, hrfil, rfl⟩
  have hidd := mem_dedupBy_id hid
  exact List.length_pos.2 (List.ne_nil_of_mem hidd)

/-- Witness for C7 amended: the department-bearing record is counted. -/
theorem C7_female_geo_department_filtered_witness :
    1 ≤ 1 ∧ ∃ r ∈ df_acq_unique_dept exArtistsGeo exArtworkDept,
      r.gender = some "Female".data ∧
      r.nationality = some "American".data ∧
      r.department.isSome = true :=
  C7_female_geo_department_filtered.1 exArtistsGeo exArtworkDept
    "American".data 1 (by decide)

/-! ## Claim C5 -/

theorem stripChars_eq_rdropWhile (s : List Char) :
    stripChars s = List.rdropWhile isSpaceChar (s.dropWhile isSpaceChar) :=
  rfl

theorem dropWhile_stripChars (s : List Char) :
    (stripChars s).dropWhile isSpaceChar = stripChars s := by
  rw [stripChars_eq_rdropWhile]
  have hu : (s.dropWhile isSpaceChar).dropWhile isSpaceChar
      = s.dropWhile isSpaceChar := List.dropWhile_idempotent _ _
  have hpre : List.IsPrefix
      (List.rdropWhile isSpaceChar (s.dropWhile isSpaceChar))
      (s.dropWhile isSpaceChar) := List.rdropWhile_prefix _ _
  obtain ⟨w, hw⟩ := hpre
  cases hv : List.rdropWhile isSpaceChar (s.dropWhile isSpaceChar) with
  | nil => rfl
  | cons a v =>
    rw [hv] at hw
    have hsp : isSpaceChar a = false := by
      by_contra hcon
      have ha : isSpaceChar a = true := by
        cases h2 : isSpaceChar a
        · exact absurd h2 hcon
        · rfl
      rw [← hw] at hu
      rw [List.cons_append] at hu
      rw [List.dropWhile_cons_of_pos ha] at hu
      have := congrArg List.length hu
      simp only [List.length_cons] at this
      have hle := (List.dropWhile_sublist (l := v ++ w) isSpaceChar).length_le
      omega
    exact List.dropWhile_cons_of_neg (by simp [hsp])

theorem stripChars_idempotent (s : List Char) :
    stripChars (stripChars s) = stripChars s := by
  rw [show stripChars (stripChars s)
      = List.rdropWhile isSpaceChar
          ((stripChars s).dropWhile isSpaceChar) from rfl]
  rw [dropWhile_stripChars]
  rw [stripChars_eq_rdropWhile]
  exact List.rdropWhile_idempotent _ _

theorem mem_of_mem_stripChars {s : List Char} {c : Char}
    (h : c ∈ stripChars s) : c ∈ s := by
  unfold stripChars at h
  rw [List.mem_reverse] at h
  have h2 := (List.dropWhile_sublist isSpaceChar).subset h
  rw [List.mem_reverse] at h2
  exact (List.dropWhile_sublist isSpaceChar).subset h2

/-- Counterexample to C5: the two tables do not normalize the
identifier 1234, 5678 to the same value, and an artist record carrying
that identifier is not joined to by an artwork carrying it. -/
theorem C5_counterexample :
    normArtworkId "1234, 5678".data ≠ normArtistId "1234, 5678".data ∧
    ((df exArtistsCommaId exArtworkCommaId).map (fun r => r.gender))
      = [none] := by decide

/-- C5 amended: the comma handling is applied only to the artwork
table: artwork identifiers are trimmed and truncated to the first
comma-separated entry (trimmed), while artist identifiers are only
trimmed.  The two normalizations agree on comma-free identifiers, an
artwork with Artist ID 1234, 5678 joins to the artist with ID 1234,
but an artist whose own identifier field is 1234, 5678 keeps the full
string and is not matched by that artwork. -/
theorem C5_artwork_only_comma_split :
    (∀ s : List Char, ',' ∉ s → normArtworkId s = normArtistId s) ∧
    normArtworkId "1234, 5678".data = "1234".data ∧
    normArtistId "1234, 5678".data = "1234, 5678".data ∧
    ((df exArtistsPlainId exArtworkCommaId).map (fun r => r.gender))
      = [some "Female".data] ∧
    ((df exArtistsCommaId exArtworkCommaId).map (fun r => r.gender))
      = [none] := by
  refine ⟨?_, by decide, by decide, by decide, by decide⟩
  intro s hs
  unfold normArtworkId normArtistId beforeComma
  have hnc : (stripChars s).takeWhile (fun c => c ≠ ',') = stripChars s := by
    refine List.takeWhile_eq_self_iff.mpr ?_
    intro a ha
    have : a ∈ s := mem_of_mem_stripChars ha
    simp only [ne_eq, decide_eq_true_eq]
    intro hac
    exact hs (hac ▸ this)
  rw [hnc, stripChars_idempotent]

/-- Witness for C5 amended: comma-free identifiers agree. -/
theorem C5_artwork_only_comma_split_witness :
    normArtworkId "1234".data = normArtistId "1234".data :=
  C5_artwork_only_comma_split.1 "1234".data (by decide)

/-! ## Claim C8 -/

theorem joinRowsFor_eq_single {as : List ArtistNorm}
    (hnd : (as.map (fun a => a.artistId)).Nodup) (w : ArtworkRow) :
    joinRowsFor as w = [oneJoin as w] := by
  induction as with
  | nil => rfl
  | cons a t ih =>
    by_cases hm : (a.artistId == w.artistId) = true
    · have hnot : ∀ x ∈ t, ¬ (x.artistId == w.artistId) = true := by
        intro x hx hbeq
        have hxe : x.artistId = w.artistId := eq_of_beq hbeq
        have hmem : a.artistId ∈ t.map (fun a2 => a2.artistId) :=
          List.mem_map.2 ⟨x, hx, by rw [hxe, eq_of_beq hm]⟩
        exact (List.nodup_cons.1 hnd).1 hmem
      have hfc : (a :: t).filter (fun x => x.artistId == w.artistId)
          = [a] := by
        rw [List.filter_cons_of_pos
          (p := fun x : ArtistNorm => x.artistId == w.artistId) hm,
          List.filter_eq_nil_iff.2 hnot]
      have hfd : (a :: t).find? (fun x => x.artistId == w.artistId)
          = some a := List.find?_cons_of_pos _ hm
      unfold joinRowsFor oneJoin
      rw [hfc, hfd]
      rfl
    · have hf : (a :: t).filter (fun x => x.artistId == w.artistId)
          = t.filter (fun x => x.artistId == w.artistId) :=
        List.filter_cons_of_neg (by simpa using hm)
      have hfind : (a :: t).find? (fun x => x.artistId == w.artistId)
          = t.find? (fun x => x.artistId == w.artistId) :=
        List.find?_cons_of_neg _ (by simpa using hm)
      have iht := ih (List.nodup_cons.1 hnd).2
      unfold joinRowsFor oneJoin
      rw [hf, hfind]
      unfold joinRowsFor oneJoin at iht
      exact iht

theorem df_eq_map_oneJoin {as : List ArtistRow} (ws : List ArtworkRow)
    (hnd : ((prepArtists as).map (fun a => a.artistId)).Nodup) :
    df as ws = (prepArtworks ws).map (oneJoin (prepArtists as)) := by
  unfold df
  induction prepArtworks ws with
  | nil => rfl
  | cons w t ih =>
    rw [List.map_cons, List.flatten_cons, joinRowsFor_eq_single hnd,
      List.map_cons, List.singleton_append, ih]

/-- C8: under the data-model precondition that the normalized artist
table has one row per identifier, the merge of line 49 is a left join:
the joined frame has exactly one row per artwork, in order, carrying
the artwork columns unchanged, and its artist-derived columns (gender,
birth year, nationality) are all absent exactly when no artist row
matches the artwork identifier. -/
theorem C8_left_join (as : List ArtistRow) (ws : List ArtworkRow)
    (hnd : ((prepArtists as).map (fun a => a.artistId)).Nodup) :
    (df as ws).length = ws.length ∧
    ∀ (i : Nat) (h1 : i < (df as ws).length)
      (h2 : i < (prepArtworks ws).length),
      ((df as ws).get ⟨i, h1⟩).artistId
          = ((prepArtworks ws).get ⟨i, h2⟩).artistId ∧
      ((df as ws).get ⟨i, h1⟩).acqYear
          = ((prepArtworks ws).get ⟨i, h2⟩).acqYear ∧
      ((df as ws).get ⟨i, h1⟩).dateText
          = ((prepArtworks ws).get ⟨i, h2⟩).dateText ∧
      ((df as ws).get ⟨i, h1⟩).department
          = ((prepArtworks ws).get ⟨i, h2⟩).department ∧
      ((((df as ws).get ⟨i, h1⟩).gender = none ∧
        ((df as ws).get ⟨i, h1⟩).birthYear = none ∧
        ((df as ws).get ⟨i, h1⟩).nationality = none)
        ↔ ∀ a ∈ prepArtists as,
            a.artistId ≠ ((prepArtworks ws).get ⟨i, h2⟩).artistId) := by
  have hmap := df_eq_map_oneJoin ws hnd
  constructor
  · rw [hmap, List.length_map]
    unfold prepArtworks
    rw [List.length_map]
  · intro i h1 h2
    have he : (df as ws).get ⟨i, h1⟩
        = oneJoin (prepArtists as) ((prepArtworks ws).get ⟨i, h2⟩) := by
      have h4 : ((prepArtworks ws).map (oneJoin (prepArtists as)))[i]?
          = some (oneJoin (prepArtists as)
              ((prepArtworks ws).get ⟨i, h2⟩)) := by
        rw [List.getElem?_map, List.getElem?_eq_getElem h2,
          List.get_eq_getElem]
        rfl
      have h5 : (df as ws)[i]? = some ((df as ws).get ⟨i, h1⟩) := by
        rw [List.getElem?_eq_getElem h1, List.get_eq_getElem]
      have h6 : (df as ws)[i]? = ((prepArtworks ws).map
          (oneJoin (prepArtists as)))[i]? := by rw [hmap]
      exact Option.some.inj (h5.symm.trans (h6.trans h4))
    rw [he]
    cases hfind : (prepArtists as).find?
        (fun a => a.artistId == ((prepArtworks ws)[i]).artistId) with
    | some a =>
      refine ⟨by simp [oneJoin, hfind], by simp [oneJoin, hfind],
        by simp [oneJoin, hfind], by simp [oneJoin, hfind], ?_⟩
      simp only [oneJoin, List.get_eq_getElem, hfind]
      constructor
      · rintro ⟨hg, -, -⟩
        exact absurd hg (by simp)
      · intro hall
        have hpa := List.find?_some hfind
        exact absurd (eq_of_beq hpa)
          (hall a (List.mem_of_find?_eq_some hfind))
    | none =>
      refine ⟨by simp [oneJoin, hfind], by simp [oneJoin, hfind],
        by simp [oneJoin, hfind], by simp [oneJoin, hfind], ?_⟩
      simp only [oneJoin, List.get_eq_getElem, hfind]
      constructor
      · intro _ a hamem hae
        exact (List.find?_eq_none.1 hfind a hamem) (beq_iff_eq.2 hae)
      · intro _
        first
          | exact ⟨rfl, rfl, rfl⟩
          | trivial

/-- Witness for C8 at a concrete input: one matched and one unmatched
artwork, joined in order. -/
theorem C8_left_join_witness :
    (df exArtists1 exArtworksMixed).length = exArtworksMixed.length ∧
    ∃ h1 : 0 < (df exArtists1 exArtworksMixed).length,
    ∃ h2 : 0 < (prepArtworks exArtworksMixed).length,
      ((df exArtists1 exArtworksMixed).get ⟨0, h1⟩).artistId
        = ((prepArtworks exArtworksMixed).get ⟨0, h2⟩).artistId := by
  have h := C8_left_join exArtists1 exArtworksMixed (by decide)
  exact ⟨h.1, by decide, by decide, (h.2 0 (by decide) (by decide)).1⟩

/-! ## Claim C4 -/

theorem toNat_ofNat_valid (n : Nat) (h : n < 55296) :
    (Char.ofNat n).toNat = n := by
  have hv : Nat.isValidChar n := Or.inl h
  unfold Char.ofNat
  simp [hv]
  rfl

theorem char_eq_of_toNat {a b : Char} (h : a.toNat = b.toNat) : a = b :=
  Char.ext (UInt32.ext h)

theorem lowerChar_toNat (c : Char) :
    (lowerChar c).toNat
      = if 65 ≤ c.toNat ∧ c.toNat ≤ 90 then c.toNat + 32 else c.toNat := by
  unfold lowerChar
  by_cases h : 65 ≤ c.toNat ∧ c.toNat ≤ 90
  · have hb : (65 ≤ c.toNat && c.toNat ≤ 90) = true := by
      simp only [Bool.and_eq_true, decide_eq_true_eq]
      exact h
    rw [if_pos hb, if_pos h]
    exact toNat_ofNat_valid _ (by omega)
  · have hb : ¬ ((65 ≤ c.toNat && c.toNat ≤ 90) = true) := by
      simp only [Bool.and_eq_true, decide_eq_true_eq]
      exact h
    rw [if_neg hb, if_neg h]

theorem upperChar_toNat (c : Char) :
    (upperChar c).toNat
      = if 97 ≤ c.toNat ∧ c.toNat ≤ 122 then c.toNat - 32 else c.toNat := by
  unfold upperChar
  by_cases h : 97 ≤ c.toNat ∧ c.toNat ≤ 122
  · have hb : (97 ≤ c.toNat && c.toNat ≤ 122) = true := by
      simp only [Bool.and_eq_true, decide_eq_true_eq]
      exact h
    rw [if_pos hb, if_pos h]
    exact toNat_ofNat_valid _ (by omega)
  · have hb : ¬ ((97 ≤ c.toNat && c.toNat ≤ 122) = true) := by
      simp only [Bool.and_eq_true, decide_eq_true_eq]
      exact h
    rw [if_neg hb, if_neg h]

theorem isAlphaChar_iff (c : Char) :
    isAlphaChar c = true
      ↔ (65 ≤ c.toNat ∧ c.toNat ≤ 90) ∨ (97 ≤ c.toNat ∧ c.toNat ≤ 122) := by
  simp [isAlphaChar, Bool.or_eq_true, Bool.and_eq_true, decide_eq_true_eq]

theorem isAlphaChar_lowerChar (c : Char) :
    isAlphaChar (lowerChar c) = isAlphaChar c := by
  have h1 := lowerChar_toNat c
  apply Bool.coe_iff_coe.mp
  rw [isAlphaChar_iff, isAlphaChar_iff, h1]
  by_cases h : 65 ≤ c.toNat ∧ c.toNat ≤ 90
  · rw [if_pos h]
    omega
  · rw [if_neg h]

theorem lowerChar_lowerChar (c : Char) :
    lowerChar (lowerChar c) = lowerChar c := by
  apply char_eq_of_toNat
  have h1 := lowerChar_toNat c
  by_cases h : 65 ≤ c.toNat ∧ c.toNat ≤ 90
  · rw [if_pos h] at h1
    rw [lowerChar_toNat, h1, if_neg (by omega)]
  · rw [if_neg h] at h1
    rw [lowerChar_toNat, h1, if_neg h]

theorem upperChar_lowerChar (c : Char) :
    upperChar (lowerChar c) = upperChar c := by
  apply char_eq_of_toNat
  have h1 := lowerChar_toNat c
  by_cases h : 65 ≤ c.toNat ∧ c.toNat ≤ 90
  · rw [if_pos h] at h1
    rw [upperChar_toNat, h1, if_pos (by omega), upperChar_toNat,
      if_neg (by omega)]
    omega
  · rw [if_neg h] at h1
    rw [upperChar_toNat, h1, upperChar_toNat]

theorem titleAux_map_lowerChar (s : List Char) :
    ∀ b : Bool, titleAux b (s.map lowerChar) = titleAux b s := by
  induction s with
  | nil => intro b; rfl
  | cons c t ih =>
    intro b
    simp only [List.map_cons, titleAux]
    rw [isAlphaChar_lowerChar, ih]
    cases b with
    | false => simp [upperChar_lowerChar]
    | true => simp [lowerChar_lowerChar]

theorem titleStr_lowerStr (s : List Char) :
    titleStr (lowerStr s) = titleStr s := by
  unfold titleStr lowerStr
  exact titleAux_map_lowerChar s false

theorem hasSubstr_mono {p q : List Char} (hpq : p.isPrefixOf q = true) :
    ∀ s : List Char, hasSubstr q s = true → hasSubstr p s = true := by
  intro s
  induction s with
  | nil =>
    intro h
    simp only [hasSubstr, List.isEmpty_iff] at h ⊢
    rw [h] at hpq
    have := List.isPrefixOf_iff_prefix.mp hpq
    exact List.prefix_nil.mp this
  | cons c t ih =>
    intro h
    simp only [hasSubstr, Bool.or_eq_true] at h ⊢
    rcases h with h | h
    · left
      exact List.isPrefixOf_iff_prefix.mpr
        (List.IsPrefix.trans (List.isPrefixOf_iff_prefix.mp hpq)
          (List.isPrefixOf_iff_prefix.mp h))
    · right
      exact ih h

/-- C4: norm_gender implements the ordered normalization rules of the
specification: the null-like strings (and absent input) give Unknown,
then the f and m initial-letter rules, then the non / nb / binary
substring rule, and otherwise the original string trimmed and
title-cased; together with the six concrete examples of the claim.
The function is total, so no input fails. -/
theorem C4_norm_gender_rules :
    (∀ x : Option (List Char), norm_gender x = normGenderSpec x) ∧
    norm_gender (some "F".data) = "Female".data ∧
    norm_gender (some "male".data) = "Male".data ∧
    norm_gender (some "non-binary".data) = "Non-binary".data ∧
    norm_gender (some "".data) = "Unknown".data ∧
    norm_gender none = "Unknown".data ∧
    norm_gender (some "Other".data) = "Other".data := by
  refine ⟨?_, by decide, by decide, by decide, by decide, by decide,
    by decide⟩
  intro x
  simp only [norm_gender, normGenderSpec]
  by_cases h1 : unknownStrings.contains
      (lowerStr (stripChars (pyStrOpt x))) = true
  · rw [if_pos h1, if_pos h1]
  · rw [if_neg h1, if_neg h1]
    by_cases h2 : "f".data.isPrefixOf
        (lowerStr (stripChars (pyStrOpt x))) = true
    · rw [if_pos h2, if_pos h2]
    · rw [if_neg h2, if_neg h2]
      by_cases h3 : "m".data.isPrefixOf
          (lowerStr (stripChars (pyStrOpt x))) = true
      · rw [if_pos h3, if_pos h3]
      · rw [if_neg h3, if_neg h3]
        by_cases h4 : (hasSubstr "non".data
              (lowerStr (stripChars (pyStrOpt x)))
            || hasSubstr "nb".data (lowerStr (stripChars (pyStrOpt x)))
            || hasSubstr "non-b".data (lowerStr (stripChars (pyStrOpt x)))
            || hasSubstr "binary".data
              (lowerStr (stripChars (pyStrOpt x)))) = true
        · rw [if_pos h4]
          have h5 : (hasSubstr "non".data
                (lowerStr (stripChars (pyStrOpt x)))
              || hasSubstr "nb".data (lowerStr (stripChars (pyStrOpt x)))
              || hasSubstr "binary".data
                (lowerStr (stripChars (pyStrOpt x)))) = true := by
            simp only [Bool.or_eq_true] at h4 ⊢
            rcases h4 with ((h | h) | h) | h
            · exact Or.inl (Or.inl h)
            · exact Or.inl (Or.inr h)
            · exact Or.inl (Or.inl (hasSubstr_mono (by decide) _ h))
            · exact Or.inr h
          rw [if_pos h5]
        · rw [if_neg h4]
          have h5 : ¬ ((hasSubstr "non".data
                (lowerStr (stripChars (pyStrOpt x)))
              || hasSubstr "nb".data (lowerStr (stripChars (pyStrOpt x)))
              || hasSubstr "binary".data
                (lowerStr (stripChars (pyStrOpt x)))) = true) := by
            simp only [Bool.or_eq_true] at h4 ⊢
            intro hc
            rcases hc with (h | h) | h
            · exact h4 (Or.inl (Or.inl (Or.inl h)))
            · exact h4 (Or.inl (Or.inl (Or.inr h)))
            · exact h4 (Or.inr h)
          rw [if_neg h5]
          exact titleStr_lowerStr _

/-! ## Claim C3 -/

/-- C3: the creation-year parser is a pure total function that follows
the ordered algorithm of the specification: the claimed examples hold,
parsing is deterministic, absent input gives the missing sentinel, a
decade match on the lowercased trimmed text wins over the year scan and
returns the decade head, and otherwise the whole-token years drive the
result: none gives missing, a nonempty collection gives the rounded
arithmetic mean. -/
theorem C3_parse_creation_year :
    parse_creation_year (some "1990s".data) = some 1990 ∧
    parse_creation_year (some "c. 1950".data) = some 1950 ∧
    parse_creation_year (some "1950–1952".data) = some 1951 ∧
    parse_creation_year (some "unknown".data) = none ∧
    parse_creation_year (some "".data) = none ∧
    parse_creation_year none = none ∧
    (∀ t : Option (List Char),
      parse_creation_year t = parse_creation_year t) ∧
    (∀ (t : List Char) (y : Nat),
      findDecade (stripChars (lowerStr t)) = some y →
      parse_creation_year (some t) = some y) ∧
    (∀ t : List Char,
      findDecade (stripChars (lowerStr t)) = none →
      findYears true (stripChars (lowerStr t)) = [] →
      parse_creation_year (some t) = none) ∧
    (∀ (t : List Char) (ys : List Nat),
      findDecade (stripChars (lowerStr t)) = none →
      findYears true (stripChars (lowerStr t)) = ys → ys ≠ [] →
      parse_creation_year (some t) = some (roundMean ys.sum ys.length)) := by
  refine ⟨by decide, by decide, by decide, by decide, by decide, rfl,
    fun t => rfl, ?_, ?_, ?_⟩
  · intro t y h
    simp only [parse_creation_year, h]
  · intro t hdec hys
    simp only [parse_creation_year, hdec, hys, List.isEmpty_nil, if_true]
  · intro t ys hdec hys hne
    have hemp : ys.isEmpty = false := by
      cases ys with
      | nil => exact absurd rfl hne
      | cons a l => rfl
    simp only [parse_creation_year, hdec, hys, hemp]
    rfl

/-- Witness for C3: the decade pattern takes priority over the year
scan on a text containing both. -/
theorem C3_parse_creation_year_witness :
    parse_creation_year (some "mid-1990s to 2001".data) = some 1990 :=
  C3_parse_creation_year.2.2.2.2.2.2.2.1 "mid-1990s to 2001".data 1990
    (by decide)

end Moma
